import Mathlib

/-!
Shallow embedding of the MIMIC-IV-ECG WFDB-to-DICOM conversion pipeline
(src/run_convert.py and src/Transform_WFDB_to_DICOM.py), together with
theorems settling the specification claims about it.
-/

/- ===== Python-style string helpers used throughout the repository ===== -/

/-- Characters treated as whitespace by Python str.strip and str.split. -/
def isPySpace (c : Char) : Bool :=
  c = ' ' ∨ c = '\t' ∨ c = '\n' ∨ c = '\r' ∨ c = '\x0b' ∨ c = '\x0c'

/-- Python s.strip on a character list: drop whitespace from both ends. -/
def pyStripChars (l : List Char) : List Char :=
  ((l.dropWhile isPySpace).reverse.dropWhile isPySpace).reverse

/-- Python s.strip on a string. -/
def pyStrip (s : String) : String := String.mk (pyStripChars s.toList)

/-- Embeds _normalize_study_id from src/run_convert.py on character lists:
strip surrounding whitespace, then drop a trailing ".0" suffix if present. -/
def normalizeStudyIdChars (l : List Char) : List Char :=
  let t := pyStripChars l
  if ['0', '.'].isPrefixOf t.reverse then t.dropLast.dropLast else t

/-- Embeds _normalize_study_id from src/run_convert.py. -/
def normalizeStudyId (s : String) : String :=
  String.mk (normalizeStudyIdChars s.toList)

/- ===== Waveform payload layout (src/Transform_WFDB_to_DICOM.py 108-113) ===== -/

/-- Two little-endian bytes of one signed 16-bit sample; embeds the per-element
effect of numpy astype with little-endian int16 followed by tobytes. -/
def int16LEBytes (v : Int) : List Nat :=
  let u := (v % 65536).toNat
  [u % 256, u / 256]

/-- Payload built by wfdb_to_dicom_ecg_phase1: the samples-by-channels digital
matrix flattened in C (row-major, i.e. sample-major / channel-minor) order,
each value serialized as little-endian signed 16-bit. -/
def waveformBytes (sig : List (List Int)) : List Nat :=
  (sig.flatten.map int16LEBytes).flatten

/-- Inverse of int16LEBytes on byte pairs: little-endian unsigned recombination
followed by the two's-complement reinterpretation. -/
def int16OfLE (b0 b1 : Nat) : Int :=
  let u := b0 + 256 * b1
  if u < 32768 then (u : Int) else (u : Int) - 65536

/-- Decode a byte stream as consecutive little-endian signed 16-bit values. -/
def decodeInt16s : List Nat → List Int
  | b0 :: b1 :: rest => int16OfLE b0 b1 :: decodeInt16s rest
  | _ => []

/-- Regroup a flat sample list into nSamp rows of nCh channels each. -/
def chunkRows (nSamp nCh : Nat) (l : List Int) : List (List Int) :=
  match nSamp with
  | 0 => []
  | n + 1 => l.take nCh :: chunkRows n nCh (l.drop nCh)

/-- Reinterpret a payload as an nSamp-by-nCh matrix of little-endian signed
16-bit integers in sample-major / channel-minor order. -/
def decodeWaveform (nSamp nCh : Nat) (bytes : List Nat) : List (List Int) :=
  chunkRows nSamp nCh (decodeInt16s bytes)

/- ===== Lemmas for the payload round-trip ===== -/

theorem int16_roundtrip (v : Int) (hlo : -32768 ≤ v) (hhi : v ≤ 32767) :
    int16OfLE ((v % 65536).toNat % 256) ((v % 65536).toNat / 256) = v := by
  have hmod : (v % 65536).toNat % 256 + 256 * ((v % 65536).toNat / 256) = (v % 65536).toNat :=
    Nat.mod_add_div _ _
  unfold int16OfLE
  rcases le_or_lt 0 v with hv | hv
  · have hv65536 : v % 65536 = v := Int.emod_eq_of_lt hv (by omega)
    have htn : ((v % 65536).toNat : Int) = v := by
      rw [hv65536]; exact Int.toNat_of_nonneg hv
    have hlt : (v % 65536).toNat < 32768 := by omega
    simp only [hmod, if_pos hlt, htn]
  · have hv65536 : v % 65536 = v + 65536 := by
      have h1 : (v + 65536) % 65536 = v + 65536 := Int.emod_eq_of_lt (by omega) (by omega)
      omega
    have htn : ((v % 65536).toNat : Int) = v + 65536 := by
      rw [hv65536]; exact Int.toNat_of_nonneg (by omega)
    have hge : ¬ (v % 65536).toNat < 32768 := by omega
    simp only [hmod, if_neg hge, htn]
    omega

theorem decodeInt16s_encode (l : List Int)
    (h : ∀ v ∈ l, -32768 ≤ v ∧ v ≤ 32767) :
    decodeInt16s ((l.map int16LEBytes).flatten) = l := by
  induction l with
  | nil => rfl
  | cons v rest ih =>
    have hv := h v (List.mem_cons_self v rest)
    have hrest : ∀ x ∈ rest, -32768 ≤ x ∧ x ≤ 32767 :=
      fun x hx => h x (List.mem_cons_of_mem v hx)
    have hstep : ((v :: rest).map int16LEBytes).flatten =
        ((v % 65536).toNat % 256) :: ((v % 65536).toNat / 256) ::
          (rest.map int16LEBytes).flatten := by
      simp [int16LEBytes]
    rw [hstep]
    simp only [decodeInt16s]
    rw [ih hrest, int16_roundtrip v hv.1 hv.2]

theorem chunkRows_flatten (sig : List (List Int)) (nCh : Nat)
    (hrow : ∀ r ∈ sig, r.length = nCh) :
    chunkRows sig.length nCh sig.flatten = sig := by
  induction sig with
  | nil => rfl
  | cons r rest ih =>
    have hr : r.length = nCh := hrow r (List.mem_cons_self r rest)
    have hrest : ∀ x ∈ rest, x.length = nCh :=
      fun x hx => hrow x (List.mem_cons_of_mem r hx)
    have h1 : (r ++ rest.flatten).take nCh = r := by
      rw [← hr]; exact List.take_left r rest.flatten
    have h2 : (r ++ rest.flatten).drop nCh = rest.flatten := by
      rw [← hr]; exact List.drop_left r rest.flatten
    simp only [List.length_cons, List.flatten_cons, chunkRows]
    rw [h1, h2, ih hrest]

theorem waveformBytes_length (sig : List (List Int)) (nCh : Nat)
    (hrow : ∀ r ∈ sig, r.length = nCh) :
    (waveformBytes sig).length = nCh * sig.length * 2 := by
  have hflat : ∀ l : List Int, ((l.map int16LEBytes).flatten).length = 2 * l.length := by
    intro l
    induction l with
    | nil => rfl
    | cons a as iha =>
      simp only [List.map_cons, List.flatten_cons, List.length_append, iha,
        int16LEBytes, List.length_cons, List.length_nil]
      ring
  have hlen : sig.flatten.length = nCh * sig.length := by
    induction sig with
    | nil => simp
    | cons r rest ih =>
      have hr : r.length = nCh := hrow r (List.mem_cons_self r rest)
      have hrest : ∀ x ∈ rest, x.length = nCh :=
        fun x hx => hrow x (List.mem_cons_of_mem r hx)
      simp only [List.flatten_cons, List.length_append, hr, ih hrest, List.length_cons]
      ring
  simp only [waveformBytes, hflat, hlen]
  ring

/- ===== DICOM artifact model and quick validator (run_convert.py 81-119) ===== -/

/-- Attributes of the first (and only) waveform multiplex group that
validate_dicom_ecg_quick inspects; a field is none when the corresponding
DICOM attribute is absent from the dataset (getattr then falls back to its
default). -/
structure WaveformRecordDS where
  numberOfWaveformChannels : Option Int
  numberOfWaveformSamples : Option Int
  samplingFrequency : Option Rat
  waveformSampleInterpretation : Option String
  waveformBitsAllocated : Option Int
  waveformData : Option (List Nat)
deriving DecidableEq

/-- A readable DICOM file: its (possibly absent) WaveformSequence. -/
structure DicomFile where
  waveformSequence : Option (List WaveformRecordDS)
deriving DecidableEq

/-- Filesystem model for produced artifacts: none means the path does not
exist or cannot be read as a DICOM dataset. -/
abbrev FileStore : Type := String → Option DicomFile

/-- The length-mismatch reason string built by validate_dicom_ecg_quick. -/
def lenMismatchReason (actual expected : Int) : String :=
  "WaveformData length mismatch: " ++ toString actual ++ " != " ++ toString expected

/-- Embeds the checks of validate_dicom_ecg_quick that run after dcmread
succeeded, in source order. -/
def validateWaveformDS (ds : DicomFile) : Bool × String :=
  match ds.waveformSequence with
  | none => (false, "No WaveformSequence")
  | some [] => (false, "No WaveformSequence")
  | some (wf :: _) =>
    let nCh := wf.numberOfWaveformChannels.getD 0
    let nSamp := wf.numberOfWaveformSamples.getD 0
    let fs := wf.samplingFrequency.getD 0
    if nCh ≤ 0 ∨ nSamp ≤ 0 ∨ fs ≤ 0 then
      (false, "Invalid n_ch/n_samp/fs: " ++ toString nCh ++ "/" ++ toString nSamp
        ++ "/" ++ toString fs)
    else
      let interp := wf.waveformSampleInterpretation.getD ""
      let bits := wf.waveformBitsAllocated.getD 0
      if interp ≠ "SS" then (false, "Unexpected interpretation: " ++ interp)
      else if bits ≠ 16 then (false, "Unexpected bits allocated: " ++ toString bits)
      else
        match wf.waveformData with
        | none => (false, "No WaveformData")
        | some payload =>
          let expected := nCh * nSamp * 2
          if (payload.length : Int) ≠ expected then
            (false, lenMismatchReason payload.length expected)
          else (true, "OK")

/-- Embeds validate_dicom_ecg_quick (run_convert.py 81-119): re-open the file
at the given path; an unreadable file is caught by the except branch and
reported as a failure. -/
def validateDicomEcgQuick (files : FileStore) (path : String) : Bool × String :=
  match files path with
  | none => (false, "FileNotFoundError: " ++ path)
  | some ds => validateWaveformDS ds

/-- Drop the last payload byte of the first waveform record, modelling a
truncated artifact. -/
def truncatePayload (ds : DicomFile) : DicomFile :=
  match ds.waveformSequence with
  | some (wf :: rest) =>
      ⟨some ({ wf with waveformData := wf.waveformData.map List.dropLast } :: rest)⟩
  | other => ⟨other⟩

/- ===== Ledger rows and resume logic (run_convert.py 201-211, 249-250) ===== -/

/-- One row of the progress ledger CSV; none models a missing/NA cell. -/
structure LedgerRow where
  studyId : String
  dcmPath : Option String
  dcmError : Option String
deriving DecidableEq

/-- Embeds _row_is_success (run_convert.py 201-211): recompute success from the
recorded locator, the filesystem and the structural validator, ignoring any
previously stored error or flag. -/
def rowIsSuccess (files : FileStore) (row : LedgerRow) : Bool :=
  match row.dcmPath with
  | none => false
  | some p =>
    if p = "" then false
    else if (files p).isNone then false
    else (validateDicomEcgQuick files p).1

/-- Embeds the to-do computation of run_batch (lines 249-250): re-queue exactly
the rows whose recomputed success is false. -/
def computeTodo (files : FileStore) (df : List LedgerRow) : List String :=
  (df.filter (fun r => ¬ rowIsSuccess files r)).map (fun r => r.studyId)

/- ===== Task results and ledger merge (run_convert.py 294-317) ===== -/

/-- The per-task result dict produced by _convert_one_with_timeout. -/
structure TaskResult where
  studyId : String
  dcmPath : Option String
  dcmError : Option String
deriving DecidableEq

/-- Normalized id of a result, as recomputed inside _apply_results. -/
def resNorm (t : TaskResult) : String := normalizeStudyId t.studyId

/-- Normalized id of a ledger row, as recomputed inside _apply_results. -/
def rowNorm (r : LedgerRow) : String := normalizeStudyId r.studyId

/-- The per-row update of _apply_results: a row whose normalized study id
appears among the batch results is overwritten with that result's dcm_path
and dcm_error (the last occurrence in the batch winning, matching the
overwrite order of the update loop); any other row is unchanged. -/
def applyRow (results : List TaskResult) (row : LedgerRow) : LedgerRow :=
  match results.reverse.find? (fun t => resNorm t = rowNorm row) with
  | some t => { row with dcmPath := t.dcmPath, dcmError := t.dcmError }
  | none => row

/-- Embeds _apply_results (run_convert.py 294-317): update every ledger row
from the batch results; an empty batch returns immediately. -/
def applyResults (df : List LedgerRow) (results : List TaskResult) : List LedgerRow :=
  if results.isEmpty then df
  else df.map (applyRow results)

/-- The merged ledger described by the specification: each row matching a
result id receives exactly that result's fields, every other row is
unchanged.  Used as the canonical form against which _apply_results is
compared. -/
def mergeCanonical (df : List LedgerRow) (results : List TaskResult) : List LedgerRow :=
  df.map (fun row =>
    match results.find? (fun t => resNorm t = rowNorm row) with
    | some t => { row with dcmPath := t.dcmPath, dcmError := t.dcmError }
    | none => row)

/- ===== Checkpointed collection loop (run_convert.py 261-291) ===== -/

/-- State of run_batch's collection loop: the in-memory table, the unflushed
result buffer, the durable (last written to output_csv) table and the count of
collected results. -/
structure RunState where
  df : List LedgerRow
  buffer : List TaskResult
  durable : List LedgerRow
  done : Nat
deriving DecidableEq

/-- Embeds one iteration of the as_completed loop (run_convert.py 278-284):
buffer the result, increment done, and at every checkpoint_every-th result
apply the buffer and rewrite the CSV in full. -/
def collectStep (checkpointEvery : Nat) (st : RunState) (res : TaskResult) : RunState :=
  let buf := st.buffer ++ [res]
  let done := st.done + 1
  if 0 < checkpointEvery ∧ done % checkpointEvery = 0 then
    let df := applyResults st.df buf
    { df := df, buffer := [], durable := df, done := done }
  else { st with buffer := buf, done := done }

/-- Folding the collection loop over the arrived results. -/
def collectLoop (checkpointEvery : Nat) (st : RunState) (results : List TaskResult) : RunState :=
  results.foldl (collectStep checkpointEvery) st

/-- Initial loop state: the in-memory table equals the durable table read (or
created) at startup, nothing buffered. -/
def initialRunState (df0 : List LedgerRow) : RunState :=
  { df := df0, buffer := [], durable := df0, done := 0 }

/-- Embeds the final flush of run_batch (lines 287-291): apply any leftover
buffer, then rewrite the CSV unconditionally. -/
def runBatchFinal (checkpointEvery : Nat) (df0 : List LedgerRow)
    (results : List TaskResult) : List LedgerRow :=
  let st := collectLoop checkpointEvery (initialRunState df0) results
  if st.buffer.isEmpty then st.df else applyResults st.df st.buffer

/- ===== Channel identity codes (Transform_WFDB_to_DICOM.py 29-56) ===== -/

/-- One coded concept: coding scheme designator, code value, code meaning. -/
structure CodeItem where
  codingSchemeDesignator : String
  codeValue : String
  codeMeaning : String
deriving DecidableEq

/-- The LEAD_MDC_CID3001 table from Transform_WFDB_to_DICOM.py, as
label / code value / code meaning triples. -/
def LEAD_MDC_CID3001 : List (String × String × String) :=
  [ ("I",   "2:1",  "Lead I"),
    ("II",  "2:2",  "Lead II"),
    ("III", "2:61", "Lead III"),
    ("aVR", "2:62", "aVR, augmented voltage, right"),
    ("aVL", "2:63", "aVL, augmented voltage, left"),
    ("aVF", "2:64", "aVF, augmented voltage, foot"),
    ("V1",  "2:3",  "Lead V1"),
    ("V2",  "2:4",  "Lead V2"),
    ("V3",  "2:5",  "Lead V3"),
    ("V4",  "2:6",  "Lead V4"),
    ("V5",  "2:7",  "Lead V5"),
    ("V6",  "2:8",  "Lead V6") ]

/-- Embeds make_channel_source_sequence (Transform_WFDB_to_DICOM.py 45-56):
a known label yields the MDC code from the table; an unknown label yields a
99LOCAL code whose value is the label and whose meaning prefixes the label
with "ECG Lead ". -/
def makeChannelSourceSequence (leadLabel : String) : List CodeItem :=
  match LEAD_MDC_CID3001.find? (fun e => e.1 = leadLabel) with
  | some e => [⟨"MDC", e.2.1, e.2.2⟩]
  | none => [⟨"99LOCAL", leadLabel, "ECG Lead " ++ leadLabel⟩]

/- ===== Header datetime parsing (Transform_WFDB_to_DICOM.py 73-88) ===== -/

/-- A Python datetime value as produced by datetime.strptime. -/
structure PyDateTime where
  year : Nat
  month : Nat
  day : Nat
  hour : Nat
  minute : Nat
  second : Nat
deriving DecidableEq

/-- Numeric value of a non-empty all-digit character group. -/
def digitsToNat? (l : List Char) : Option Nat :=
  if l ≠ [] ∧ l.all Char.isDigit then
    some (l.foldl (fun acc c => acc * 10 + (c.toNat - 48)) 0)
  else none

/-- Gregorian leap-year rule used by datetime's day-of-month validation. -/
def isLeapYear (y : Nat) : Bool :=
  (y % 4 = 0 ∧ y % 100 ≠ 0) ∨ y % 400 = 0

/-- Days in a month, as validated by the datetime constructor. -/
def daysInMonth (y m : Nat) : Nat :=
  if m = 2 then (if isLeapYear y then 29 else 28)
  else if m = 4 ∨ m = 6 ∨ m = 9 ∨ m = 11 then 30
  else 31

/-- Split a character list into maximal runs of non-whitespace, as Python
str.split with no argument does; acc carries the current token reversed. -/
def splitPyWhitespaceAux : List Char → List Char → List (List Char)
  | [], acc => if acc = [] then [] else [acc.reverse]
  | c :: rest, acc =>
    if isPySpace c then
      if acc = [] then splitPyWhitespaceAux rest []
      else acc.reverse :: splitPyWhitespaceAux rest []
    else splitPyWhitespaceAux rest (c :: acc)

/-- Python str.split() on a character list. -/
def splitPyWhitespace (l : List Char) : List (List Char) :=
  splitPyWhitespaceAux l []

/-- Split a character list at every occurrence of sep, as Python str.split
with a one-character separator; acc carries the current field reversed. -/
def splitOnCharAux (sep : Char) : List Char → List Char → List (List Char)
  | [], acc => [acc.reverse]
  | c :: rest, acc =>
    if c = sep then acc.reverse :: splitOnCharAux sep rest []
    else splitOnCharAux sep rest (c :: acc)

/-- Python str.split(sep) on a character list. -/
def splitOnChar (sep : Char) (l : List Char) : List (List Char) :=
  splitOnCharAux sep l []

/-- Model of datetime.strptime with the fixed format string used by
_parse_wfdb_header_datetime: day/month/year then a space then
hour:minute:second, with the field-width and range checks strptime performs
for the directives of that format and the calendar validation done by the
datetime constructor; none models the ValueError branch. -/
def strptimeDMYHMS (s : String) : Option PyDateTime :=
  match splitPyWhitespace s.toList with
  | [datePart, timePart] =>
    match splitOnChar '/' datePart, splitOnChar ':' timePart with
    | [dS, mS, yS], [hS, miS, seS] =>
      match digitsToNat? dS, digitsToNat? mS, digitsToNat? yS,
          digitsToNat? hS, digitsToNat? miS, digitsToNat? seS with
      | some d, some m, some y, some h, some mi, some se =>
        if dS.length ≤ 2 ∧ mS.length ≤ 2 ∧ yS.length = 4
            ∧ hS.length ≤ 2 ∧ miS.length ≤ 2 ∧ seS.length ≤ 2
            ∧ 1 ≤ d ∧ 1 ≤ m ∧ m ≤ 12 ∧ h ≤ 23 ∧ mi ≤ 59 ∧ se ≤ 59
            ∧ 1 ≤ y ∧ d ≤ daysInMonth y m then
          some ⟨y, m, d, h, mi, se⟩
        else none
      | _, _, _, _, _, _ => none
    | _, _ => none
  | _ => none

/-- The first line of a text file, as f.readline() returns it (without the
trailing newline, which the subsequent strip would remove anyway). -/
def firstLine (content : String) : String :=
  String.mk (content.toList.takeWhile (fun c => c ≠ '\n'))

/-- Embeds _parse_wfdb_header_datetime (Transform_WFDB_to_DICOM.py 73-88)
over a model of the header file: none models a missing .hea file.  The
stripped first line is whitespace-split; with at least six fields, fields 5
and 4 are parsed as date and time in the fixed format. -/
def parseWfdbHeaderDatetime (heaContent : Option String) : Option PyDateTime :=
  match heaContent with
  | none => none
  | some content =>
    let parts := splitPyWhitespace (pyStripChars (firstLine content).toList)
    if h : 6 ≤ parts.length then
      strptimeDMYHMS (String.mk (parts.get ⟨5, by omega⟩) ++ " "
        ++ String.mk (parts.get ⟨4, by omega⟩))
    else none

/-- The metadata row fields the converter reads (df_info columns). -/
structure MetaRow where
  ecgTime : PyDateTime
deriving DecidableEq

/-- Embeds the acquisition-datetime cascade of wfdb_to_dicom_ecg_phase1
(Transform_WFDB_to_DICOM.py 139-143), with the current wall-clock time passed
explicitly. -/
def acquisitionDateTime (heaContent : Option String) (fileInfo : Option MetaRow)
    (now : PyDateTime) : PyDateTime :=
  let acq0 := parseWfdbHeaderDatetime heaContent
  let acq1 :=
    match acq0, fileInfo with
    | none, some info => some info.ecgTime
    | _, _ => acq0
  match acq1 with
  | some d => d
  | none => now

/- ===== Worker pre-dispatch branches (run_convert.py 148-195) ===== -/

/-- Per-worker context set up by _init_worker: directories, overwrite flag and
the df_info table indexed by normalized study id. -/
structure WorkerCtx where
  wfdbDir : String
  dcmDir : String
  overwrite : Bool
  metaIndex : List (String × MetaRow)

/-- What _convert_one_with_timeout decides to do before any child process is
spawned: return a skip-success, return a missing-metadata failure, or
dispatch the conversion to the isolation child. -/
inductive ConvertDecision where
  | skipExisting (sid dcmPath : String)
  | missingMeta (sid : String)
  | dispatch (sid wfdbPathNoExt dcmPath : String) (row : MetaRow)
deriving DecidableEq

/-- Embeds the pre-dispatch logic of _convert_one_with_timeout (run_convert.py
156-179): normalize the id, derive the paths, fast-skip when an existing
artifact validates and overwrite is off, then look up the metadata row. -/
def convertOnePre (g : WorkerCtx) (files : FileStore) (studyId : String) : ConvertDecision :=
  let sid := normalizeStudyId studyId
  let wfdbPathNoExt := g.wfdbDir ++ "/" ++ sid
  let dcmPath := g.dcmDir ++ "/" ++ sid ++ ".dcm"
  if ¬ g.overwrite ∧ (files dcmPath).isSome ∧ (validateDicomEcgQuick files dcmPath).1 then
    .skipExisting sid dcmPath
  else
    match g.metaIndex.find? (fun e => e.1 = sid) with
    | none => .missingMeta sid
    | some e => .dispatch sid wfdbPathNoExt dcmPath e.2

/-- The TaskResult returned by the worker when no conversion child is
dispatched (run_convert.py 166 and 171); none in the dispatch case. -/
def decisionResult : ConvertDecision → Option TaskResult
  | .skipExisting sid p => some ⟨sid, some p, none⟩
  | .missingMeta sid => some ⟨sid, none, some "Missing df_info row for study_id"⟩
  | .dispatch _ _ _ _ => none

/- ===== Hard-timeout child supervision (run_convert.py 176-195) ===== -/

/-- Observable state of the per-task child when the parent's join returns:
either it finished (having put at most one message on the queue) or it is
still alive at the deadline. -/
inductive ChildStatus where
  | finished (msg : Option (String × Option String × Option String))
  | runningAtDeadline
deriving DecidableEq

/-- Final fate of the child for this run. -/
inductive ChildFinal where
  | reaped
  | killed
deriving DecidableEq

/-- Embeds the join/terminate logic of _convert_one_with_timeout (run_convert.py
182-195): a child still alive when the timeout elapses is terminated and
reported with the distinct timeout error; the filesystem is returned untouched
in every branch (the parent never deletes a partial output file). -/
def awaitChild (timeoutSec : Nat) (sid : String) (files : FileStore)
    (status : ChildStatus) : TaskResult × FileStore × ChildFinal :=
  match status with
  | .runningAtDeadline =>
      (⟨sid, none, some ("Timeout>" ++ toString timeoutSec ++ "s")⟩, files, .killed)
  | .finished none =>
      (⟨sid, none, some "No result returned (unexpected)"⟩, files, .reaped)
  | .finished (some (sid2, outPath, err)) =>
      (⟨sid2, outPath, err⟩, files, .reaped)

/- ===== Subject-id parsing (Transform_WFDB_to_DICOM.py 63-70, 128) ===== -/

/-- Result of running a Python function that may raise IndexError. -/
inductive ParseOutcome (α : Type) where
  | ok (v : α)
  | indexError
deriving DecidableEq

/-- Everything after the first colon, modelling s.split with separator colon
and maxsplit one, then index 1; none models the IndexError raised when the
list has a single element (no colon present). -/
def afterFirstColon : List Char → Option (List Char)
  | [] => none
  | c :: rest => if c = ':' then some rest else afterFirstColon rest

/-- The marker scanned for, as lowered characters. -/
def subjectIdMarker : List Char := "<subject_id>".toList

/-- The line transformation from _parse_subject_id_from_comments: strip leading
hash characters, then surrounding whitespace. -/
def lineStripped (line : String) : List Char :=
  pyStripChars (line.toList.dropWhile (fun c => c = '#'))

/-- Whether the stripped, lowercased line starts with the subject-id marker. -/
def isMarkerLine (line : String) : Bool :=
  subjectIdMarker.isPrefixOf ((lineStripped line).map Char.toLower)

/-- Embeds _parse_subject_id_from_comments (Transform_WFDB_to_DICOM.py 63-70):
scan the annotation lines for the first marker line and return the stripped
text after its first colon; ok none when no line carries the marker (also for
an empty or absent comment list); indexError models the uncaught IndexError
when a marker line has no colon. -/
def parseSubjectIdFromComments : List String → ParseOutcome (Option String)
  | [] => .ok none
  | line :: rest =>
    if isMarkerLine line then
      match afterFirstColon (lineStripped line) with
      | some tail => .ok (some (String.mk (pyStripChars tail)))
      | none => .indexError
    else parseSubjectIdFromComments rest

/-- Embeds the caller at Transform_WFDB_to_DICOM.py line 128: a falsy parse
result (None, or the empty string) is replaced by the UNKNOWN sentinel. -/
def subjectIdOf (comments : List String) : ParseOutcome String :=
  match parseSubjectIdFromComments comments with
  | .indexError => .indexError
  | .ok none => .ok "UNKNOWN"
  | .ok (some s) => .ok (if s = "" then "UNKNOWN" else s)

/- ===================== Claim theorems ===================== -/

/-- C2: for every integer sample matrix (samples by channels) with values in
the signed 16-bit range, the payload built by wfdb_to_dicom_ecg_phase1 has
byte length channels * samples * 2, and reinterpreting it as little-endian
signed 16-bit integers in sample-major / channel-minor order recovers the
matrix exactly. -/
theorem waveform_payload_roundtrip (sig : List (List Int)) (nCh : Nat)
    (hrow : ∀ r ∈ sig, r.length = nCh)
    (hval : ∀ r ∈ sig, ∀ v ∈ r, -32768 ≤ v ∧ v ≤ 32767) :
    (waveformBytes sig).length = nCh * sig.length * 2 ∧
    decodeWaveform sig.length nCh (waveformBytes sig) = sig := by
  refine ⟨waveformBytes_length sig nCh hrow, ?_⟩
  have h1 : decodeInt16s ((sig.flatten.map int16LEBytes).flatten) = sig.flatten := by
    refine decodeInt16s_encode sig.flatten ?_
    intro v hv
    obtain ⟨r, hr, hvr⟩ := List.mem_flatten.mp hv
    exact hval r hr v hvr
  unfold decodeWaveform waveformBytes
  rw [h1, chunkRows_flatten sig nCh hrow]

/-- Witness for C2 at a concrete 2-sample, 2-channel matrix. -/
theorem waveform_payload_roundtrip_witness :
    ((∀ r ∈ [[1, -2], [300, -400]], List.length r = 2) ∧
     (∀ r ∈ [[1, -2], [300, -400]], ∀ v ∈ r, -32768 ≤ v ∧ v ≤ 32767)) ∧
    ((waveformBytes [[1, -2], [300, -400]]).length = 2 * 2 * 2 ∧
     decodeWaveform 2 2 (waveformBytes [[1, -2], [300, -400]]) = [[1, -2], [300, -400]]) :=
  ⟨⟨by decide, by decide⟩,
   waveform_payload_roundtrip [[1, -2], [300, -400]] 2 (by decide) (by decide)⟩

/-- C4: when the conversion child is still alive at the deadline, the worker
kills it and returns a TaskResult with no output path and the distinct error
string built from the timeout (for a 5-second deadline, exactly
"Timeout>5s"), leaving the filesystem untouched. -/
theorem timeout_branch_result (timeoutSec : Nat) (sid : String) (files : FileStore) :
    awaitChild timeoutSec sid files ChildStatus.runningAtDeadline =
      (⟨sid, none, some ("Timeout>" ++ toString timeoutSec ++ "s")⟩, files, ChildFinal.killed) ∧
    (awaitChild 5 sid files ChildStatus.runningAtDeadline).1.dcmError = some "Timeout>5s" ∧
    (awaitChild 5 sid files ChildStatus.runningAtDeadline).1.dcmPath = none ∧
    (awaitChild 5 sid files ChildStatus.runningAtDeadline).2.1 = files := by
  refine ⟨rfl, ?_, rfl, rfl⟩
  show some ("Timeout>" ++ toString (5 : Nat) ++ "s") = some "Timeout>5s"
  decide

/-- C5 counterexample: for the unrecognized label "X1" the local code's
human-readable meaning is "ECG Lead X1", not the label used verbatim. -/
theorem channel_fallback_meaning_counterexample :
    makeChannelSourceSequence "X1" = [⟨"99LOCAL", "X1", "ECG Lead X1"⟩] ∧
    ("ECG Lead X1" : String) ≠ "X1" := by decide

/-- C5 (amended): a label found in the LEAD_MDC_CID3001 table yields the MDC
designator with that entry's code value and meaning; any other label yields a
99LOCAL designator whose code value is the label verbatim and whose meaning
is "ECG Lead " followed by the label; the mapping is total either way. -/
theorem channel_source_amended (label : String) :
    (∀ e, LEAD_MDC_CID3001.find? (fun x => x.1 = label) = some e →
      makeChannelSourceSequence label = [⟨"MDC", e.2.1, e.2.2⟩]) ∧
    (LEAD_MDC_CID3001.find? (fun x => x.1 = label) = none →
      makeChannelSourceSequence label = [⟨"99LOCAL", label, "ECG Lead " ++ label⟩]) := by
  constructor
  · intro e he
    unfold makeChannelSourceSequence
    rw [he]
  · intro he
    unfold makeChannelSourceSequence
    rw [he]

/-- Witness for C5 (amended) at the recognized label "V1" and the
unrecognized label "X1". -/
theorem channel_source_amended_witness :
    (LEAD_MDC_CID3001.find? (fun x => x.1 = "V1") = some ("V1", "2:3", "Lead V1") ∧
     makeChannelSourceSequence "V1" = [⟨"MDC", "2:3", "Lead V1"⟩]) ∧
    (LEAD_MDC_CID3001.find? (fun x => x.1 = "X1") = none ∧
     makeChannelSourceSequence "X1" = [⟨"99LOCAL", "X1", "ECG Lead X1"⟩]) :=
  ⟨⟨by decide, (channel_source_amended "V1").1 ("V1", "2:3", "Lead V1") (by decide)⟩,
   ⟨by decide, (channel_source_amended "X1").2 (by decide)⟩⟩

/-- C7: the acquisition timestamp written into the artifact is the embedded
header timestamp when it parses, else the metadata row's timestamp when a
metadata row exists, else the current wall-clock time. -/
theorem acquisition_datetime_precedence (heaContent : Option String)
    (fileInfo : Option MetaRow) (now : PyDateTime) :
    (∀ d, parseWfdbHeaderDatetime heaContent = some d →
      acquisitionDateTime heaContent fileInfo now = d) ∧
    (parseWfdbHeaderDatetime heaContent = none →
      ∀ info, fileInfo = some info →
        acquisitionDateTime heaContent fileInfo now = info.ecgTime) ∧
    (parseWfdbHeaderDatetime heaContent = none → fileInfo = none →
      acquisitionDateTime heaContent fileInfo now = now) := by
  refine ⟨?_, ?_, ?_⟩ <;> intros <;> unfold acquisitionDateTime <;> simp_all

/-- Witness for C7: a header first line whose sixth and fifth fields carry the
date and time, parsed in the fixed two-field format and taking precedence
over both fallbacks. -/
theorem acquisition_datetime_precedence_witness :
    parseWfdbHeaderDatetime (some "81784901 12 500 5000 10:20:30 15/06/2020\nII 200") =
      some ⟨2020, 6, 15, 10, 20, 30⟩ ∧
    acquisitionDateTime (some "81784901 12 500 5000 10:20:30 15/06/2020\nII 200")
      (some ⟨⟨2021, 1, 2, 3, 4, 5⟩⟩) ⟨2026, 1, 1, 0, 0, 0⟩ = ⟨2020, 6, 15, 10, 20, 30⟩ :=
  ⟨by decide,
   (acquisition_datetime_precedence _ _ _).1 ⟨2020, 6, 15, 10, 20, 30⟩ (by decide)⟩
theorem validateWaveformDS_true_iff (wf : WaveformRecordDS) (rest : List WaveformRecordDS) :
    (validateWaveformDS ⟨some (wf :: rest)⟩).1 = true ↔
      (0 < wf.numberOfWaveformChannels.getD 0 ∧
       0 < wf.numberOfWaveformSamples.getD 0 ∧
       0 < wf.samplingFrequency.getD 0 ∧
       wf.waveformSampleInterpretation.getD "" = "SS" ∧
       wf.waveformBitsAllocated.getD 0 = 16 ∧
       ∃ payload, wf.waveformData = some payload ∧
         (payload.length : Int) =
           wf.numberOfWaveformChannels.getD 0 * wf.numberOfWaveformSamples.getD 0 * 2) := by
  unfold validateWaveformDS
  simp only
  constructor
  · intro h
    split at h
    · simp at h
    · rename_i hpos
      push_neg at hpos
      split at h
      · simp at h
      · rename_i hinterp
        split at h
        · simp at h
        · rename_i hbits
          split at h
          · simp at h
          · rename_i payload hwd
            split at h
            · simp at h
            · rename_i hlen
              push_neg at hinterp hbits hlen
              exact ⟨hpos.1, hpos.2.1, hpos.2.2, hinterp, hbits,
                payload, hwd, hlen⟩
  · rintro ⟨h1, h2, h3, h4, h5, payload, hwd, hlen⟩
    rw [if_neg (by push_neg; exact ⟨h1, h2, h3⟩), if_neg (by simpa using h4),
      if_neg (by simpa using h5), hwd]
    simp [hlen]
theorem validateWaveformDS_truncate (wf : WaveformRecordDS) (rest : List WaveformRecordDS)
    (h : (validateWaveformDS ⟨some (wf :: rest)⟩).1 = true) :
    ∃ n : Int, 0 < n ∧
      validateWaveformDS (truncatePayload ⟨some (wf :: rest)⟩) =
        (false, lenMismatchReason (n - 1) n) := by
  obtain ⟨h1, h2, h3, h4, h5, payload, hwd, hlen⟩ :=
    (validateWaveformDS_true_iff wf rest).mp h
  have hn : (0 : Int) < wf.numberOfWaveformChannels.getD 0 *
      wf.numberOfWaveformSamples.getD 0 * 2 :=
    mul_pos (mul_pos h1 h2) (by norm_num)
  refine ⟨wf.numberOfWaveformChannels.getD 0 * wf.numberOfWaveformSamples.getD 0 * 2,
    hn, ?_⟩
  generalize hN : wf.numberOfWaveformChannels.getD 0 *
      wf.numberOfWaveformSamples.getD 0 * 2 = N at hlen hn ⊢
  have hplen : 0 < payload.length := by omega
  have hdrop : ((payload.dropLast.length : Int)) = N - 1 := by
    rw [List.length_dropLast]
    omega
  have htr : truncatePayload ⟨some (wf :: rest)⟩ =
      ⟨some ({ wf with waveformData := some payload.dropLast } :: rest)⟩ := by
    simp [truncatePayload, hwd]
  rw [htr]
  unfold validateWaveformDS
  simp only
  rw [if_neg (by push_neg; exact ⟨h1, h2, h3⟩), if_neg (by simpa using h4),
    if_neg (by simpa using h5)]
  rw [if_pos (by rw [hdrop]; omega), hdrop, hN]

/-- C1: the structural validator is total and accepts exactly the readable
artifacts whose first waveform record has strictly positive channel count,
sample count and sampling frequency, interpretation "SS", 16 bits allocated,
and a payload of exactly channel_count * sample_count * 2 bytes; and
truncating a valid payload by one byte makes it fail with the
length-mismatch reason. -/
theorem validator_characterization :
    (∀ (files : FileStore) (path : String),
      ((validateDicomEcgQuick files path).1 = true ↔
        ∃ ds wf rest, files path = some ds ∧
          ds.waveformSequence = some (wf :: rest) ∧
          0 < wf.numberOfWaveformChannels.getD 0 ∧
          0 < wf.numberOfWaveformSamples.getD 0 ∧
          0 < wf.samplingFrequency.getD 0 ∧
          wf.waveformSampleInterpretation.getD "" = "SS" ∧
          wf.waveformBitsAllocated.getD 0 = 16 ∧
          ∃ payload, wf.waveformData = some payload ∧
            (payload.length : Int) =
              wf.numberOfWaveformChannels.getD 0 *
                wf.numberOfWaveformSamples.getD 0 * 2)) ∧
    (∀ ds : DicomFile, (validateWaveformDS ds).1 = true →
      ∃ n : Int, 0 < n ∧
        validateWaveformDS (truncatePayload ds) = (false, lenMismatchReason (n - 1) n)) := by
  constructor
  · intro files path
    cases hfp : files path with
    | none =>
      constructor
      · intro hok
        exfalso
        simp [validateDicomEcgQuick, hfp] at hok
      · rintro ⟨ds, wf, rest, hds, _⟩
        exact absurd hds (by simp)
    | some ds =>
      have hq : validateDicomEcgQuick files path = validateWaveformDS ds := by
        simp [validateDicomEcgQuick, hfp]
      rw [hq]
      obtain ⟨seq⟩ := ds
      constructor
      · intro hok
        cases seq with
        | none => simp [validateWaveformDS] at hok
        | some l =>
          cases l with
          | nil => simp [validateWaveformDS] at hok
          | cons wf rest =>
            obtain hc := (validateWaveformDS_true_iff wf rest).mp hok
            exact ⟨⟨some (wf :: rest)⟩, wf, rest, rfl, rfl, hc.1, hc.2.1, hc.2.2.1,
              hc.2.2.2.1, hc.2.2.2.2.1, hc.2.2.2.2.2⟩
      · rintro ⟨ds2, wf, rest, hds2, hseq, hcond⟩
        injection hds2 with he
        subst he
        have hs : seq = some (wf :: rest) := hseq
        subst hs
        exact (validateWaveformDS_true_iff wf rest).mpr hcond
  · intro ds hok
    obtain ⟨seq⟩ := ds
    cases seq with
    | none => simp [validateWaveformDS] at hok
    | some l =>
      cases l with
      | nil => simp [validateWaveformDS] at hok
      | cons wf rest => exact validateWaveformDS_truncate wf rest hok

/-- Witness for C1 at a concrete single-channel, single-sample artifact. -/
theorem validator_characterization_witness :
    (validateWaveformDS
      ⟨some [⟨some 1, some 1, some 500, some "SS", some 16, some [7, 0]⟩]⟩).1 = true ∧
    ∃ n : Int, 0 < n ∧
      validateWaveformDS (truncatePayload
        ⟨some [⟨some 1, some 1, some 500, some "SS", some 16, some [7, 0]⟩]⟩) =
        (false, lenMismatchReason (n - 1) n) :=
  ⟨by decide,
   validator_characterization.2
     ⟨some [⟨some 1, some 1, some 500, some "SS", some 16, some [7, 0]⟩]⟩ (by decide)⟩

/-- C3: _row_is_success recomputes success exactly as: recorded locator
present and non-empty, file readable on disk, and accepted by the structural
validator — independent of any stored error; and run_batch re-queues exactly
the rows whose recomputed check is false. -/
theorem row_success_characterization (files : FileStore) :
    (∀ row : LedgerRow,
      (rowIsSuccess files row = true ↔
        ∃ p, row.dcmPath = some p ∧ p ≠ "" ∧ (files p).isSome = true ∧
          (validateDicomEcgQuick files p).1 = true)) ∧
    (∀ (row : LedgerRow) (e1 e2 : Option String),
      rowIsSuccess files { row with dcmError := e1 } =
        rowIsSuccess files { row with dcmError := e2 }) ∧
    (∀ df : List LedgerRow,
      computeTodo files df =
        (df.filter (fun r => ¬ rowIsSuccess files r)).map (fun r => r.studyId)) := by
  refine ⟨?_, fun row e1 e2 => rfl, fun df => rfl⟩
  intro row
  rcases hP : row.dcmPath with _ | p
  · simp [rowIsSuccess, hP]
  · simp only [rowIsSuccess, hP]
    constructor
    · intro h
      by_cases hpe : p = ""
      · rw [if_pos hpe] at h
        exact absurd h (by simp)
      · rw [if_neg hpe] at h
        by_cases hnone : (files p).isNone
        · rw [if_pos hnone] at h
          exact absurd h (by simp)
        · rw [if_neg hnone] at h
          refine ⟨p, rfl, hpe, ?_, h⟩
          cases hfp : files p
          · rw [hfp] at hnone
            exact absurd rfl hnone
          · rfl
    · rintro ⟨q, hq, hne, hsome, hval⟩
      injection hq with he
      subst he
      have hnn : ¬ (files p).isNone = true := by
        cases hfp : files p
        · rw [hfp] at hsome
          exact absurd hsome (by simp)
        · simp
      rw [if_neg hne, if_neg hnn]
      exact hval

/- ===== Lemmas for subject-id parsing (C10) ===== -/

theorem mem_dropWhile_of_not (p : Char → Bool) (c : Char) (hc : ¬ p c = true) :
    ∀ l : List Char, c ∈ l → c ∈ l.dropWhile p := by
  intro l hl
  induction l with
  | nil => cases hl
  | cons a as ih =>
    rw [List.dropWhile_cons]
    by_cases ha : p a = true
    · rw [if_pos ha]
      rcases List.mem_cons.mp hl with he | hm
      · exact absurd (he ▸ hc) (by simp [ha, he])
      · exact ih hm
    · rw [if_neg ha]
      exact hl

theorem mem_pyStripChars (c : Char) (hc : ¬ isPySpace c = true) (l : List Char)
    (h : c ∈ l) : c ∈ pyStripChars l := by
  unfold pyStripChars
  rw [List.mem_reverse]
  apply mem_dropWhile_of_not isPySpace c hc
  rw [List.mem_reverse]
  exact mem_dropWhile_of_not isPySpace c hc l h

theorem afterFirstColon_of_mem (l : List Char) (h : ':' ∈ l) :
    ∃ t, afterFirstColon l = some t := by
  induction l with
  | nil => cases h
  | cons a rest ih =>
    unfold afterFirstColon
    by_cases ha : a = ':'
    · rw [if_pos ha]
      exact ⟨rest, rfl⟩
    · rw [if_neg ha]
      rcases List.mem_cons.mp h with he | hm
      · exact absurd he.symm ha
      · exact ih hm

theorem colon_mem_lineStripped (line : String) (h : ':' ∈ line.toList) :
    ':' ∈ lineStripped line := by
  unfold lineStripped
  apply mem_pyStripChars ':' (by decide)
  exact mem_dropWhile_of_not _ ':' (by decide) line.toList h

theorem parseSubjectId_no_marker (comments : List String)
    (h : ∀ line ∈ comments, isMarkerLine line = false) :
    parseSubjectIdFromComments comments = .ok none := by
  induction comments with
  | nil => rfl
  | cons line rest ih =>
    unfold parseSubjectIdFromComments
    rw [if_neg (by rw [h line (List.mem_cons_self line rest)]; simp)]
    exact ih (fun l hl => h l (List.mem_cons_of_mem line hl))

theorem parseSubjectId_first_marker (pre : List String) (line : String)
    (post : List String) (hpre : ∀ l ∈ pre, isMarkerLine l = false)
    (hm : isMarkerLine line = true) (t : List Char)
    (ht : afterFirstColon (lineStripped line) = some t) :
    parseSubjectIdFromComments (pre ++ line :: post) =
      .ok (some (String.mk (pyStripChars t))) := by
  induction pre with
  | nil =>
    rw [List.nil_append]
    unfold parseSubjectIdFromComments
    rw [if_pos hm, ht]
  | cons l0 pres ih =>
    rw [List.cons_append]
    unfold parseSubjectIdFromComments
    rw [if_neg (by rw [hpre l0 (List.mem_cons_self l0 pres)]; simp)]
    exact ih (fun l hl => hpre l (List.mem_cons_of_mem l0 hl))

theorem parseSubjectId_total (comments : List String)
    (h : ∀ line ∈ comments, isMarkerLine line = true → ':' ∈ line.toList) :
    ∃ v, parseSubjectIdFromComments comments = .ok v := by
  induction comments with
  | nil => exact ⟨none, rfl⟩
  | cons line rest ih =>
    unfold parseSubjectIdFromComments
    by_cases hm : isMarkerLine line = true
    · rw [if_pos hm]
      obtain ⟨t, ht⟩ := afterFirstColon_of_mem (lineStripped line)
        (colon_mem_lineStripped line (h line (List.mem_cons_self line rest) hm))
      rw [ht]
      exact ⟨some (String.mk (pyStripChars t)), rfl⟩
    · rw [if_neg hm]
      exact ih (fun l hl hml => h l (List.mem_cons_of_mem line hl) hml)

/-- C10: under the precondition that every annotation line carrying the
subject-id marker contains a colon, the parser is total — ok with the
stripped text after the first colon of the first marker line, ok none when no
marker line exists; and without the precondition the IndexError branch is
reachable at a marker line with no colon. -/
theorem subject_id_parse_total_and_error_reachable :
    (∀ comments : List String,
      (∀ line ∈ comments, isMarkerLine line = true → ':' ∈ line.toList) →
      (∃ v, parseSubjectIdFromComments comments = .ok v) ∧
      ((∀ line ∈ comments, isMarkerLine line = false) →
        parseSubjectIdFromComments comments = .ok none) ∧
      (∀ pre line post, comments = pre ++ line :: post →
        (∀ l ∈ pre, isMarkerLine l = false) → isMarkerLine line = true →
        ∀ t, afterFirstColon (lineStripped line) = some t →
          parseSubjectIdFromComments comments =
            .ok (some (String.mk (pyStripChars t))))) ∧
    parseSubjectIdFromComments ["<subject_id> 123"] = .indexError := by
  refine ⟨?_, by decide⟩
  intro comments hpc
  refine ⟨parseSubjectId_total comments hpc, parseSubjectId_no_marker comments, ?_⟩
  intro pre line post hsplit hpre hm t ht
  rw [hsplit]
  exact parseSubjectId_first_marker pre line post hpre hm t ht

/-- Witness for C10 at a concrete comment list whose marker line has a
colon. -/
theorem subject_id_parse_witness :
    (∀ line ∈ ["# note", "#<Subject_ID>:  42 "], isMarkerLine line = true →
      ':' ∈ line.toList) ∧
    parseSubjectIdFromComments ["# note", "#<Subject_ID>:  42 "] = .ok (some "42") := by
  refine ⟨by decide, ?_⟩
  have h := (subject_id_parse_total_and_error_reachable.1
      ["# note", "#<Subject_ID>:  42 "] (by decide)).2.2
      ["# note"] "#<Subject_ID>:  42 " [] rfl (by decide) (by decide)
      [' ', ' ', '4', '2'] (by decide)
  exact h.trans (by decide)

/-- C6 counterexample: for a task id absent from the metadata index the worker
returns the error string "Missing df_info row for study_id", not
"Missing metadata row"; and when a valid artifact already exists at the
output path with overwrite off, the fast-skip branch returns a success even
though the id is absent from the index. -/
theorem missing_metadata_counterexample :
    (convertOnePre ⟨"w", "d", false, []⟩ (fun _ => none) "42" =
        ConvertDecision.missingMeta "42" ∧
      decisionResult (convertOnePre ⟨"w", "d", false, []⟩ (fun _ => none) "42") =
        some ⟨"42", none, some "Missing df_info row for study_id"⟩ ∧
      ("Missing df_info row for study_id" : String) ≠ "Missing metadata row") ∧
    (convertOnePre ⟨"w", "d", false, []⟩
        (fun p => if p = "d/42.dcm" then
          some ⟨some [⟨some 1, some 1, some 500, some "SS", some 16, some [7, 0]⟩]⟩
        else none) "42" = ConvertDecision.skipExisting "42" "d/42.dcm" ∧
      decisionResult (convertOnePre ⟨"w", "d", false, []⟩
        (fun p => if p = "d/42.dcm" then
          some ⟨some [⟨some 1, some 1, some 500, some "SS", some 16, some [7, 0]⟩]⟩
        else none) "42") = some ⟨"42", some "d/42.dcm", none⟩) := by decide

/-- C6 (amended): when the fast-skip branch does not apply, a task whose
normalized id is absent from the per-worker metadata index yields — without
dispatching a conversion child — a TaskResult with null output locator and
error "Missing df_info row for study_id". -/
theorem missing_metadata_amended (g : WorkerCtx) (files : FileStore) (studyId : String)
    (hskip : ¬ (¬ g.overwrite = true ∧
      (files (g.dcmDir ++ "/" ++ normalizeStudyId studyId ++ ".dcm")).isSome = true ∧
      (validateDicomEcgQuick files
        (g.dcmDir ++ "/" ++ normalizeStudyId studyId ++ ".dcm")).1 = true))
    (hmeta : g.metaIndex.find? (fun e => e.1 = normalizeStudyId studyId) = none) :
    convertOnePre g files studyId = ConvertDecision.missingMeta (normalizeStudyId studyId) ∧
    decisionResult (convertOnePre g files studyId) =
      some ⟨normalizeStudyId studyId, none, some "Missing df_info row for study_id"⟩ := by
  unfold convertOnePre
  simp only
  rw [if_neg hskip, hmeta]
  exact ⟨rfl, rfl⟩

/-- Witness for C6 (amended) at a concrete empty metadata index with no
pre-existing artifact. -/
theorem missing_metadata_amended_witness :
    convertOnePre ⟨"w", "d", false, []⟩ (fun _ => none) "7.0" =
      ConvertDecision.missingMeta "7" ∧
    decisionResult (convertOnePre ⟨"w", "d", false, []⟩ (fun _ => none) "7.0") =
      some ⟨"7", none, some "Missing df_info row for study_id"⟩ :=
  missing_metadata_amended ⟨"w", "d", false, []⟩ (fun _ => none) "7.0"
    (by decide) (by decide)

/- ===== Lemmas for the ledger merge (C9) ===== -/

theorem applyRow_studyId (results : List TaskResult) (row : LedgerRow) :
    (applyRow results row).studyId = row.studyId := by
  unfold applyRow
  cases results.reverse.find? (fun t => resNorm t = rowNorm row) <;> rfl

theorem applyRow_rowNorm (results : List TaskResult) (row : LedgerRow) :
    rowNorm (applyRow results row) = rowNorm row := by
  unfold rowNorm
  rw [applyRow_studyId]

theorem applyRow_of_find_some {results : List TaskResult} {row : LedgerRow}
    {t : TaskResult}
    (h : results.reverse.find? (fun s => resNorm s = rowNorm row) = some t) :
    applyRow results row = { row with dcmPath := t.dcmPath, dcmError := t.dcmError } := by
  unfold applyRow
  rw [h]

theorem applyRow_of_find_none {results : List TaskResult} {row : LedgerRow}
    (h : results.reverse.find? (fun s => resNorm s = rowNorm row) = none) :
    applyRow results row = row := by
  unfold applyRow
  rw [h]

theorem applyRow_append (r1 r2 : List TaskResult) (row : LedgerRow) :
    applyRow (r1 ++ r2) row = applyRow r2 (applyRow r1 row) := by
  cases h2 : r2.reverse.find? (fun s => resNorm s = rowNorm row) with
  | some t =>
    have hL : (r1 ++ r2).reverse.find? (fun s => resNorm s = rowNorm row) = some t := by
      rw [List.reverse_append, List.find?_append, h2]
      rfl
    have h2x : r2.reverse.find? (fun s => resNorm s = rowNorm (applyRow r1 row)) = some t := by
      rw [applyRow_rowNorm]
      exact h2
    rw [applyRow_of_find_some hL, applyRow_of_find_some h2x, applyRow_studyId]
  | none =>
    have hL : (r1 ++ r2).reverse.find? (fun s => resNorm s = rowNorm row) =
        r1.reverse.find? (fun s => resNorm s = rowNorm row) := by
      rw [List.reverse_append, List.find?_append, h2]
      rfl
    have h2x : r2.reverse.find? (fun s => resNorm s = rowNorm (applyRow r1 row)) = none := by
      rw [applyRow_rowNorm]
      exact h2
    rw [applyRow_of_find_none h2x]
    cases h1 : r1.reverse.find? (fun s => resNorm s = rowNorm row) with
    | some s => rw [applyRow_of_find_some (hL.trans h1), applyRow_of_find_some h1]
    | none => rw [applyRow_of_find_none (hL.trans h1), applyRow_of_find_none h1]

theorem applyResults_eq_map (df : List LedgerRow) (results : List TaskResult) :
    applyResults df results = df.map (applyRow results) := by
  unfold applyResults
  by_cases h : results.isEmpty
  · rw [if_pos h]
    obtain rfl := List.isEmpty_iff.mp h
    symm
    calc df.map (applyRow [])
        = df.map id := List.map_congr_left (fun a _ => rfl)
      _ = df := List.map_id df
  · rw [if_neg h]

theorem applyResults_append (df : List LedgerRow) (r1 r2 : List TaskResult) :
    applyResults (applyResults df r1) r2 = applyResults df (r1 ++ r2) := by
  rw [applyResults_eq_map, applyResults_eq_map, applyResults_eq_map, List.map_map]
  exact List.map_congr_left (fun row _ => (applyRow_append r1 r2 row).symm)

theorem foldl_applyResults_flatten (df : List LedgerRow)
    (batches : List (List TaskResult)) :
    batches.foldl applyResults df = applyResults df batches.flatten := by
  induction batches generalizing df with
  | nil => rfl
  | cons b bs ih =>
    simp only [List.foldl_cons, List.flatten_cons]
    rw [ih, applyResults_append]

theorem find?_eq_of_perm_nodup {l l2 : List TaskResult} (hp : l.Perm l2)
    (hn : (l.map resNorm).Nodup) (k : String) :
    l.find? (fun t => resNorm t = k) = l2.find? (fun t => resNorm t = k) := by
  cases h1 : l.find? (fun t => resNorm t = k) with
  | none =>
    cases h2 : l2.find? (fun t => resNorm t = k) with
    | none => rfl
    | some t =>
      have ht := List.find?_some h2
      have htm : t ∈ l := hp.mem_iff.mpr (List.mem_of_find?_eq_some h2)
      have := List.find?_eq_none.mp h1 t htm
      exact absurd ht this
  | some t =>
    have ht := List.find?_some h1
    have htm : t ∈ l := List.mem_of_find?_eq_some h1
    cases h2 : l2.find? (fun t => resNorm t = k) with
    | none =>
      have := List.find?_eq_none.mp h2 t (hp.mem_iff.mp htm)
      exact absurd ht this
    | some t2 =>
      have ht2 := List.find?_some h2
      have ht2m : t2 ∈ l := hp.mem_iff.mpr (List.mem_of_find?_eq_some h2)
      have heq : t = t2 := by
        refine List.inj_on_of_nodup_map hn htm ht2m ?_
        have e1 : resNorm t = k := by simpa using ht
        have e2 : resNorm t2 = k := by simpa using ht2
        rw [e1, e2]
      rw [heq]

theorem applyRow_eq_canonical {results l : List TaskResult}
    (hn : (results.map resNorm).Nodup) (hp : l.Perm results) (row : LedgerRow) :
    applyRow l row =
      match results.find? (fun t => resNorm t = rowNorm row) with
      | some t => { row with dcmPath := t.dcmPath, dcmError := t.dcmError }
      | none => row := by
  have hperm : l.reverse.Perm results := (List.reverse_perm l).trans hp
  have hnrev : (l.reverse.map resNorm).Nodup :=
    ((hperm.map resNorm).nodup_iff).mpr hn
  unfold applyRow
  rw [find?_eq_of_perm_nodup hperm hnrev (rowNorm row)]

/-- C9: with pairwise-distinct normalized result ids, folding _apply_results
over any partition of any arrival order of the results yields the canonical
merged ledger — each matching row receives exactly its result, other rows
unchanged; and across batches a duplicated id resolves last-write-wins. -/
theorem apply_results_order_independent :
    (∀ (df : List LedgerRow) (results : List TaskResult)
        (batches : List (List TaskResult)),
      (results.map resNorm).Nodup → batches.flatten.Perm results →
      batches.foldl applyResults df = mergeCanonical df results) ∧
    (∀ (df : List LedgerRow) (a b : TaskResult), resNorm a = resNorm b →
      applyResults (applyResults df [a]) [b] = applyResults df [b]) := by
  constructor
  · intro df results batches hn hperm
    rw [foldl_applyResults_flatten, applyResults_eq_map, mergeCanonical]
    exact List.map_congr_left (fun row _ => applyRow_eq_canonical hn hperm row)
  · intro df a b hab
    rw [applyResults_append, applyResults_eq_map, applyResults_eq_map]
    refine List.map_congr_left (fun row _ => ?_)
    unfold applyRow
    by_cases hb : resNorm b = rowNorm row
    · simp [List.find?, hb]
    · have ha2 : ¬ resNorm a = rowNorm row := by rw [hab]; exact hb
      simp [List.find?, hb, ha2]

/-- Witness for C9: two singleton batches applied in reversed arrival order
converge to the canonical merge. -/
theorem apply_results_order_independent_witness :
    (([⟨"2", some "p2", none⟩, ⟨"1", none, some "e1"⟩] :
        List TaskResult).map resNorm).Nodup ∧
    ([[⟨"1", none, some "e1"⟩], [⟨"2", some "p2", none⟩]] :
        List (List TaskResult)).flatten.Perm
      [⟨"2", some "p2", none⟩, ⟨"1", none, some "e1"⟩] ∧
    ([[⟨"1", none, some "e1"⟩], [⟨"2", some "p2", none⟩]] :
        List (List TaskResult)).foldl applyResults
        [⟨"1", none, none⟩, ⟨"2", none, none⟩] =
      mergeCanonical [⟨"1", none, none⟩, ⟨"2", none, none⟩]
        [⟨"2", some "p2", none⟩, ⟨"1", none, some "e1"⟩] :=
  ⟨by decide, by decide,
   apply_results_order_independent.1 _ _ _ (by decide) (by decide)⟩

/- ===== Lemmas for the checkpoint cadence (C8) ===== -/

theorem collectLoop_invariant (K : Nat) (hK : 0 < K) (df0 : List LedgerRow)
    (results : List TaskResult) (n : Nat) (hn : n ≤ results.length) :
    collectLoop K (initialRunState df0) (results.take n) =
      { df := applyResults df0 (results.take (K * (n / K))),
        buffer := (results.take n).drop (K * (n / K)),
        durable := applyResults df0 (results.take (K * (n / K))),
        done := n } := by
  induction n with
  | zero =>
    simp only [List.take_zero, Nat.zero_div, Nat.mul_zero, List.drop_nil]
    rfl
  | succ m ih =>
    have hm : m ≤ results.length := Nat.le_of_succ_le hn
    have hmlt : m < results.length := hn
    have hget : results[m]? = some (results.get ⟨m, hmlt⟩) := List.getElem?_eq_getElem hmlt
    have htake : results.take (m + 1) = results.take m ++ [results.get ⟨m, hmlt⟩] := by
      rw [List.take_succ, hget]
      rfl
    have hc_le : K * (m / K) ≤ m := by
      rw [Nat.mul_comm]
      exact Nat.div_mul_le_self m K
    have hfold : collectLoop K (initialRunState df0) (results.take (m + 1)) =
        collectStep K (collectLoop K (initialRunState df0) (results.take m))
          (results.get ⟨m, hmlt⟩) := by
      rw [htake]
      unfold collectLoop
      rw [List.foldl_append]
      rfl
    rw [hfold, ih hm]
    unfold collectStep
    simp only
    by_cases hdiv : (m + 1) % K = 0
    · rw [if_pos ⟨hK, hdiv⟩]
      have hdvd : K ∣ (m + 1) := Nat.dvd_of_mod_eq_zero hdiv
      have hckpt : K * ((m + 1) / K) = m + 1 := Nat.mul_div_cancel' hdvd
      have htk : (results.take m).take (K * (m / K)) = results.take (K * (m / K)) := by
        rw [List.take_take]
        congr 1
        exact min_eq_left hc_le
      have hsplit : results.take (K * (m / K)) ++
          ((results.take m).drop (K * (m / K))) = results.take m := by
        rw [← htk]
        exact List.take_append_drop _ _
      have happ : applyResults (applyResults df0 (results.take (K * (m / K))))
          ((results.take m).drop (K * (m / K)) ++ [results.get ⟨m, hmlt⟩]) =
          applyResults df0 (results.take (m + 1)) := by
        rw [applyResults_append, ← List.append_assoc, hsplit, ← htake]
      rw [happ, hckpt]
      have hdropall : (results.take (m + 1)).drop (m + 1) = [] := by
        apply List.drop_eq_nil_of_le
        rw [List.length_take]
        omega
      rw [hdropall]
    · rw [if_neg (fun hcon => hdiv hcon.2)]
      have hdiv2 : (m + 1) / K = m / K := by
        rw [Nat.succ_div, if_neg (fun hd => hdiv (Nat.mod_eq_zero_of_dvd hd))]
        omega
      have hbuf : (results.take m).drop (K * (m / K)) ++ [results.get ⟨m, hmlt⟩] =
          (results.take (m + 1)).drop (K * (m / K)) := by
        rw [htake, List.drop_append_of_le_length]
        rw [List.length_take]
        omega
      rw [hdiv2, hbuf]

/-- C8: with a positive checkpoint interval K, after n collected results the
durable ledger holds exactly the first K*(n/K) results applied (a full write
at every K-th result), the mandatory final flush applies every result, and
any durable row whose recomputed success is false is re-queued. -/
theorem checkpoint_cadence (K : Nat) (df0 : List LedgerRow)
    (results : List TaskResult) (n : Nat) (files : FileStore)
    (hK : 0 < K) (hn : n ≤ results.length) :
    (collectLoop K (initialRunState df0) (results.take n)).durable =
      applyResults df0 (results.take (K * (n / K))) ∧
    runBatchFinal K df0 results = applyResults df0 results ∧
    (∀ row ∈ (collectLoop K (initialRunState df0) (results.take n)).durable,
      rowIsSuccess files row = false →
        row.studyId ∈ computeTodo files
          (collectLoop K (initialRunState df0) (results.take n)).durable) := by
  refine ⟨?_, ?_, ?_⟩
  · rw [collectLoop_invariant K hK df0 results n hn]
  · have hfull := collectLoop_invariant K hK df0 results results.length (le_refl _)
    rw [List.take_length] at hfull
    unfold runBatchFinal
    rw [hfull]
    by_cases hbe : (results.drop (K * (results.length / K))).isEmpty = true
    · rw [if_pos hbe]
      have hd : results.drop (K * (results.length / K)) = [] := List.isEmpty_iff.mp hbe
      have hres : results = results.take (K * (results.length / K)) := by
        conv_lhs => rw [← List.take_append_drop (K * (results.length / K)) results]
        rw [hd, List.append_nil]
      rw [← hres]
    · rw [if_neg hbe, applyResults_append, List.take_append_drop]
  · intro row hrow hfail
    unfold computeTodo
    refine List.mem_map.mpr ⟨row, List.mem_filter.mpr ⟨hrow, ?_⟩, rfl⟩
    simp [hfail]

/-- Witness for C8 at the Scenario-D shape: checkpoint interval 3, eight
tasks, killed after five collected results — the durable ledger holds exactly
the first checkpointed three. -/
theorem checkpoint_cadence_witness :
    0 < 3 ∧
    5 ≤ ([⟨"1", some "o1", none⟩, ⟨"2", some "o2", none⟩, ⟨"3", some "o3", none⟩,
      ⟨"4", some "o4", none⟩, ⟨"5", some "o5", none⟩, ⟨"6", some "o6", none⟩,
      ⟨"7", some "o7", none⟩, ⟨"8", some "o8", none⟩] : List TaskResult).length ∧
    (collectLoop 3 (initialRunState
        [⟨"1", none, none⟩, ⟨"2", none, none⟩, ⟨"3", none, none⟩, ⟨"4", none, none⟩,
         ⟨"5", none, none⟩, ⟨"6", none, none⟩, ⟨"7", none, none⟩, ⟨"8", none, none⟩])
      (([⟨"1", some "o1", none⟩, ⟨"2", some "o2", none⟩, ⟨"3", some "o3", none⟩,
        ⟨"4", some "o4", none⟩, ⟨"5", some "o5", none⟩, ⟨"6", some "o6", none⟩,
        ⟨"7", some "o7", none⟩, ⟨"8", some "o8", none⟩] : List TaskResult).take 5)).durable =
      applyResults
        [⟨"1", none, none⟩, ⟨"2", none, none⟩, ⟨"3", none, none⟩, ⟨"4", none, none⟩,
         ⟨"5", none, none⟩, ⟨"6", none, none⟩, ⟨"7", none, none⟩, ⟨"8", none, none⟩]
        (([⟨"1", some "o1", none⟩, ⟨"2", some "o2", none⟩, ⟨"3", some "o3", none⟩,
          ⟨"4", some "o4", none⟩, ⟨"5", some "o5", none⟩, ⟨"6", some "o6", none⟩,
          ⟨"7", some "o7", none⟩, ⟨"8", some "o8", none⟩] : List TaskResult).take (3 * (5 / 3))) :=
  ⟨by decide, by decide,
   (checkpoint_cadence 3
      [⟨"1", none, none⟩, ⟨"2", none, none⟩, ⟨"3", none, none⟩, ⟨"4", none, none⟩,
       ⟨"5", none, none⟩, ⟨"6", none, none⟩, ⟨"7", none, none⟩, ⟨"8", none, none⟩]
      [⟨"1", some "o1", none⟩, ⟨"2", some "o2", none⟩, ⟨"3", some "o3", none⟩,
       ⟨"4", some "o4", none⟩, ⟨"5", some "o5", none⟩, ⟨"6", some "o6", none⟩,
       ⟨"7", some "o7", none⟩, ⟨"8", some "o8", none⟩]
      5 (fun _ => none) (by decide) (by decide)).1⟩
